import Mathlib

/-!
Verification of the FlashSettings library (src/FlashSettings.h).

The library persists a user settings struct `T` (which must inherit from
`FlashDataBase`, carrying the two `uint16_t` header fields `m_size` and
`m_checksum`) into an EEPROM-backed flash partition.  Three operations:

* the constructor `FlashSettings()` sets `m_size = sizeof(T)` and
  `m_checksum = 0xAAAA`;
* `begin()` reads `sizeof(T)` bytes from flash, validates the stored size
  and the Fletcher-16 checksum, and on success copies the buffer over the
  in-memory record;
* `update()` recomputes the checksum in place and, only when it differs
  from the previous value of the checksum field, writes the whole record
  to flash and commits.

The embedding below represents the in-memory record as its byte-level
content: the two 16-bit header fields as naturals (kept below 2^16 the way
`uint16_t` arithmetic does, via explicit `% 65536` / `% 256` where the C++
performs an implicit conversion) plus the user payload as its list of
bytes.  EEPROM storage is a function from byte offset to byte value;
reads apply `% 256` since `EEPROM.read` yields a `uint8_t`.  Effects
(number of `EEPROM.write` calls, number of `EEPROM.commit` calls) are
returned explicitly so that frame properties can be stated.
-/

namespace FlashSettings

/-- In-memory record: the `FlashDataBase` header (`m_size`, `m_checksum`,
both `uint16_t` in the source) followed by the user payload's byte image.
`sizeof(T)` is `4 + payload.length`. -/
structure Record where
  m_size : Nat
  m_checksum : Nat
  payload : List Nat
  deriving DecidableEq, Repr

/-- One iteration of the loop body of `fletcher16`:
`sum1 = (sum1 + data[index]) % 255; sum2 = (sum2 + sum1) % 255;`. -/
def fletcherStep (s : Nat × Nat) (b : Nat) : Nat × Nat :=
  ((s.1 + b) % 255, (s.2 + (s.1 + b) % 255) % 255)

/-- FlashSettings::fletcher16: both sums start at 0, the loop runs over the
`count` data bytes in order, and the result is `(sum2 << 8) | sum1`. -/
def fletcher16 (data : List Nat) : Nat :=
  let s := data.foldl fletcherStep (0, 0)
  (s.2 <<< 8) ||| s.1

/-- Loop of the specification's Fletcher-16 reference definition (used only
to compare against the implementation, see the theorem for claim C4). -/
def fletcher16RefGo (sum1 sum2 : Nat) : List Nat → Nat × Nat
  | [] => (sum1, sum2)
  | b :: rest => fletcher16RefGo ((sum1 + b) % 255) ((sum2 + (sum1 + b) % 255) % 255) rest

/-- Fletcher-16 reference definition, written from the spec's words:
starting from `sum1 = 0`, `sum2 = 0`, for each byte `b` in order
`sum1 = (sum1 + b) mod 255`, `sum2 = (sum2 + sum1) mod 255`, with result
`(sum2 << 8) | sum1`. -/
def fletcher16Ref (data : List Nat) : Nat :=
  ((fletcher16RefGo 0 0 data).2 <<< 8) ||| (fletcher16RefGo 0 0 data).1

/-- Byte image of the record as laid out in memory on the (little-endian)
ESP targets: `m_size` in bytes 0-1, `m_checksum` in bytes 2-3, then the
payload bytes. -/
def recordBytes (r : Record) : List Nat :=
  r.m_size % 256 :: r.m_size / 256 % 256 ::
    r.m_checksum % 256 :: r.m_checksum / 256 % 256 ::
    r.payload.map (fun b => b % 256)

/-- The FlashSettings constructor: `m_size = sizeof(T)` (stored into a
`uint16_t`, hence the `% 65536`) and `m_checksum = 0xAAAA`; the payload
holds whatever defaults the user's struct constructs. -/
def construct (p : List Nat) : Record :=
  { m_size := (4 + p.length) % 65536, m_checksum := 0xAAAA, payload := p }

/-- Effect of the `update` write loop on storage: byte `i` of the record
image is written at offset `i` for every `i < sizeof(T)`; all other
offsets keep their previous content. -/
def writeBytes (st : Nat → Nat) (l : List Nat) : Nat → Nat :=
  fun i => if h : i < l.length then l.get ⟨i, h⟩ else st i

/-- The read loop of `begin`: `data[i] = EEPROM.read(i)` for
`i < sizeof(T)`; `EEPROM.read` returns a `uint8_t`, hence `% 256`. -/
def readBuf (st : Nat → Nat) (sz : Nat) : List Nat :=
  (List.range sz).map (fun i => st i % 256)

/-- The value `pwTemp[0]`: the first two buffer bytes read back as a
little-endian `uint16_t` (the stored size field). -/
def storedSize (st : Nat → Nat) : Nat :=
  st 0 % 256 + 256 * (st 1 % 256)

/-- The value `sum = pwTemp[1]`: buffer bytes 2 and 3 read back as a
little-endian `uint16_t` (the stored checksum field). -/
def storedSum (st : Nat → Nat) : Nat :=
  st 2 % 256 + 256 * (st 3 % 256)

/-- Storage as seen through the buffer after `pwTemp[1] = 0`: bytes 2 and
3 of the read buffer are zeroed before the checksum is recomputed. -/
def zeroCk (st : Nat → Nat) : Nat → Nat :=
  fun i => if i = 2 then 0 else if i = 3 then 0 else st i

/-- The checksum recomputed by `begin` over the read buffer with the
checksum field zeroed: `pwTemp[1] = fletcher16(data, sizeof(T))`. -/
def recomputedCk (st : Nat → Nat) (sz : Nat) : Nat :=
  fletcher16 (readBuf (zeroCk st) sz)

/-- Result of one `update()` call: the record after the call, the storage
after the call, the number of `EEPROM.write` calls, the number of
`EEPROM.commit` calls, whether the write path was taken, and the value
returned to the caller (the C++ function returns `void`). -/
structure UpdateResult where
  record : Record
  store : Nat → Nat
  writes : Nat
  commits : Nat
  wrote : Bool
  ret : Unit

/-- FlashSettings::update: save the old checksum field, recompute
`fletcher16` over the record image with the checksum field zeroed and
store it into the field; if the old value equals the new one, return
without touching storage, otherwise write every byte of the record to
flash and commit. -/
def update (r : Record) (st : Nat → Nat) : UpdateResult :=
  let old_sum := r.m_checksum
  let ck := fletcher16 (recordBytes { r with m_checksum := 0 })
  let r1 : Record := { r with m_checksum := ck }
  if old_sum = ck then
    { record := r1, store := st, writes := 0, commits := 0, wrote := false, ret := () }
  else
    { record := r1, store := writeBytes st (recordBytes r1),
      writes := 4 + r.payload.length, commits := 1, wrote := true, ret := () }

/-- Result of one `begin()` call: the record after the call, the storage
after the call, the returned flag, and the (always zero) write/commit
counts. -/
structure BeginResult where
  record : Record
  store : Nat → Nat
  loaded : Bool
  writes : Nat
  commits : Nat

/-- FlashSettings::begin: read `sizeof(T)` bytes from flash; if the stored
size field differs from `sizeof(T)`, return false leaving the record
alone; otherwise zero the buffer's checksum field, recompute `fletcher16`
over the buffer and compare with the stored checksum, returning false on
mismatch; on success copy the buffer over the in-memory record and return
true.  No write or commit is ever issued. -/
def begin (r : Record) (st : Nat → Nat) : BeginResult :=
  let sz := 4 + r.payload.length
  if storedSize st ≠ sz then
    { record := r, store := st, loaded := false, writes := 0, commits := 0 }
  else if recomputedCk st sz ≠ storedSum st then
    { record := r, store := st, loaded := false, writes := 0, commits := 0 }
  else
    { record := { m_size := storedSize st, m_checksum := storedSum st,
                  payload := (readBuf st sz).drop 4 },
      store := st, loaded := true, writes := 0, commits := 0 }

/-- One step of the caller's interaction with the store: a `begin` call, an
`update` call, a caller-side mutation of one payload byte, or an external
change of the storage contents (arbitrary storage between calls). -/
inductive Op where
  | load : Op
  | save : Op
  | mutate : Nat → Nat → Op
  | corrupt : (Nat → Nat) → Op

/-- Joint state of the in-memory record and the flash contents. -/
structure Sys where
  record : Record
  store : Nat → Nat

/-- Interpretation of one interaction step. -/
def runOp (s : Sys) (op : Op) : Sys :=
  match op with
  | Op.load =>
    let b := begin s.record s.store
    { record := b.record, store := b.store }
  | Op.save =>
    let u := update s.record s.store
    { record := u.record, store := u.store }
  | Op.mutate i v =>
    { record := { s.record with payload := s.record.payload.set i (v % 256) },
      store := s.store }
  | Op.corrupt f =>
    { record := s.record, store := f }

/-- A whole interaction history, starting from a given state. -/
def runOps (s : Sys) (ops : List Op) : Sys :=
  ops.foldl runOp s

/-- Caller-side mutation of one payload byte to a new byte value, as the
user would assign to a field of the settings struct between calls. -/
def mutateByte (r : Record) (i v : Nat) : Record :=
  { r with payload := r.payload.set i v }

/-! Helper lemmas about the Fletcher-16 fold. -/

theorem foldl_fletcherStep_eq_refGo (l : List Nat) : ∀ a b : Nat,
    l.foldl fletcherStep (a, b) = fletcher16RefGo a b l := by
  induction l with
  | nil => intro a b; rfl
  | cons x xs ih =>
    intro a b
    simp only [List.foldl_cons, fletcher16RefGo]
    exact ih _ _

theorem fletcherFold_le (l : List Nat) : ∀ a b : Nat, a ≤ 254 → b ≤ 254 →
    (l.foldl fletcherStep (a, b)).1 ≤ 254 ∧ (l.foldl fletcherStep (a, b)).2 ≤ 254 := by
  induction l with
  | nil => intro a b ha hb; exact ⟨ha, hb⟩
  | cons x xs ih =>
    intro a b ha hb
    simp only [List.foldl_cons]
    have h1 : (a + x) % 255 < 255 := Nat.mod_lt _ (by norm_num)
    have h2 : (b + (a + x) % 255) % 255 < 255 := Nat.mod_lt _ (by norm_num)
    exact ih _ _ (by omega) (by omega)

theorem fletcherFold_fst (l : List Nat) : ∀ a b : Nat, a < 255 →
    (l.foldl fletcherStep (a, b)).1 = (a + l.sum) % 255 := by
  induction l with
  | nil => intro a b ha; simp [Nat.mod_eq_of_lt ha]
  | cons x xs ih =>
    intro a b _
    simp only [List.foldl_cons, List.sum_cons]
    show (xs.foldl fletcherStep ((a + x) % 255, (b + (a + x) % 255) % 255)).1 =
      (a + (x + xs.sum)) % 255
    rw [ih _ _ (Nat.mod_lt _ (by norm_num)), Nat.mod_add_mod, Nat.add_assoc]

theorem fletcher16_eq_mul (l : List Nat) :
    fletcher16 l = 256 * (l.foldl fletcherStep (0, 0)).2 + (l.foldl fletcherStep (0, 0)).1 := by
  have hb := fletcherFold_le l 0 0 (by norm_num) (by norm_num)
  have h1 : (l.foldl fletcherStep (0, 0)).1 < 2 ^ 8 := by omega
  show ((l.foldl fletcherStep (0, 0)).2 <<< 8) ||| (l.foldl fletcherStep (0, 0)).1 = _
  rw [Nat.shiftLeft_eq, Nat.mul_comm _ (2 ^ 8), ← Nat.mul_add_lt_is_or h1]

theorem fletcher16_le (l : List Nat) : fletcher16 l ≤ 65278 := by
  have hb := fletcherFold_le l 0 0 (by norm_num) (by norm_num)
  rw [fletcher16_eq_mul]
  omega

theorem fletcher16_mod256 (l : List Nat) : fletcher16 l % 256 = l.sum % 255 := by
  have hb := fletcherFold_le l 0 0 (by norm_num) (by norm_num)
  have hf := fletcherFold_fst l 0 0 (by norm_num)
  rw [fletcher16_eq_mul, Nat.mul_add_mod, Nat.mod_eq_of_lt (by omega), hf, Nat.zero_add]

/-! Helper lemmas about lists of bytes and the storage model. -/

theorem sum_set_add (l : List Nat) : ∀ (i v : Nat) (h : i < l.length),
    (l.set i v).sum + l.get ⟨i, h⟩ = l.sum + v := by
  induction l with
  | nil => intro i v h; simp at h
  | cons x xs ih =>
    intro i v h
    cases i with
    | zero =>
      show (v :: xs).sum + x = (x :: xs).sum + v
      simp only [List.sum_cons]
      omega
    | succ n =>
      have hn : n < xs.length := by simpa using h
      have := ih n v hn
      simp only [List.set_cons_succ, List.sum_cons, List.get_cons_succ]
      omega

theorem map_mod_id (l : List Nat) (hb : ∀ b ∈ l, b < 256) :
    l.map (fun b => b % 256) = l := by
  induction l with
  | nil => rfl
  | cons x xs ih =>
    simp only [List.map_cons]
    rw [Nat.mod_eq_of_lt (hb x (by simp)), ih (fun b h => hb b (by simp [h]))]

theorem recordBytes_lt (r : Record) : ∀ b ∈ recordBytes r, b < 256 := by
  intro b hb
  simp only [recordBytes, List.mem_cons, List.mem_map] at hb
  rcases hb with h | h | h | h | ⟨a, _, h⟩ <;> subst h <;> exact Nat.mod_lt _ (by norm_num)

theorem recordBytes_length (r : Record) : (recordBytes r).length = 4 + r.payload.length := by
  simp only [recordBytes, List.length_cons, List.length_map]
  omega

theorem readBuf_length (st : Nat → Nat) (sz : Nat) : (readBuf st sz).length = sz := by
  simp [readBuf]

theorem readBuf_get (st : Nat → Nat) (sz i : Nat) (h : i < (readBuf st sz).length) :
    (readBuf st sz).get ⟨i, h⟩ = st i % 256 := by
  simp [readBuf]

theorem writeBytes_lt (st : Nat → Nat) (l : List Nat) (i : Nat) (h : i < l.length) :
    writeBytes st l i = l.get ⟨i, h⟩ :=
  dif_pos h

theorem readBuf_writeBytes (st : Nat → Nat) (l : List Nat) (hl : ∀ b ∈ l, b < 256) :
    readBuf (writeBytes st l) l.length = l := by
  apply List.ext_get (by simp [readBuf])
  intro n h1 h2
  rw [readBuf_get _ _ _ h1, writeBytes_lt st l n h2]
  exact Nat.mod_eq_of_lt (hl _ (List.get_mem l n h2))

/-! Claim theorems. -/

/-- C4: the checksum function equals the Fletcher-16 reference definition
(two running sums reduced mod 255 per byte, combined as
(sum2 shifted left by 8) or-ed with sum1), and it maps the bytes
0x01, 0x02 to 0x0403 and the empty sequence to 0x0000. -/
theorem claim_c4_fletcher16_reference :
    (∀ l : List Nat, fletcher16 l = fletcher16Ref l) ∧
    fletcher16 [1, 2] = 0x0403 ∧ fletcher16 [] = 0 := by
  refine ⟨fun l => ?_, by decide, by decide⟩
  simp only [fletcher16, fletcher16Ref]
  rw [foldl_fletcherStep_eq_refGo l 0 0]

/-- C10: both bytes of any fletcher16 result lie in 0..254, the result is
never 0xFFFF, and the checksum field read from all-0xFF erased storage is
0xFFFF (so it can never equal a recomputed checksum). -/
theorem claim_c10_fletcher16_range :
    (∀ l : List Nat, fletcher16 l / 256 ≤ 254 ∧ fletcher16 l % 256 ≤ 254 ∧
      fletcher16 l ≠ 0xFFFF) ∧
    storedSum (fun _ => 255) = 0xFFFF := by
  refine ⟨fun l => ?_, rfl⟩
  have hb := fletcherFold_le l 0 0 (by norm_num) (by norm_num)
  have he := fletcher16_eq_mul l
  refine ⟨by omega, by omega, by omega⟩

/-- C6: loading from storage whose every byte is the erase value 0xFF, or
whose every byte is zero, returns false and leaves the in-memory record
(hence its constructed defaults) untouched. -/
theorem claim_c6_fresh_storage (r : Record) :
    (begin r (fun _ => 255)).loaded = false ∧ (begin r (fun _ => 255)).record = r ∧
    (begin r (fun _ => 0)).loaded = false ∧ (begin r (fun _ => 0)).record = r := by
  have hzero : (begin r (fun _ => 0)).loaded = false ∧ (begin r (fun _ => 0)).record = r := by
    have h : storedSize (fun _ => 0) ≠ 4 + r.payload.length := by
      rw [show storedSize (fun _ => 0) = 0 from rfl]
      omega
    simp only [begin]
    rw [if_pos h]
    exact ⟨rfl, rfl⟩
  have hff : (begin r (fun _ => 255)).loaded = false ∧ (begin r (fun _ => 255)).record = r := by
    have hstored : storedSize (fun _ => 255) = 65535 := rfl
    by_cases h : 4 + r.payload.length = 65535
    · have hck : recomputedCk (fun _ => 255) (4 + r.payload.length) ≠
          storedSum (fun _ => 255) := by
        have hle := fletcher16_le (readBuf (zeroCk (fun _ => 255)) (4 + r.payload.length))
        rw [show storedSum (fun _ => 255) = 65535 from rfl]
        simp only [recomputedCk]
        omega
      simp only [begin]
      rw [if_neg (by simp [hstored, h]), if_pos hck]
      exact ⟨rfl, rfl⟩
    · simp only [begin]
      rw [if_pos (by rw [hstored]; omega)]
      exact ⟨rfl, rfl⟩
  exact ⟨hff.1, hff.2, hzero.1, hzero.2⟩

theorem update_record (r : Record) (st : Nat → Nat) :
    (update r st).record =
      { r with m_checksum := fletcher16 (recordBytes { r with m_checksum := 0 }) } := by
  simp only [update]
  split <;> rfl

theorem update_ret (r : Record) (st : Nat → Nat) : (update r st).ret = () := rfl

/-- C3: when the stored size field differs from sizeof(Record), or it
matches but the checksum recomputed over the read buffer with its
checksum field zeroed differs from the stored checksum, begin returns
false and the caller's in-memory record (header and payload) is exactly
what it was before the call. -/
theorem claim_c3_load_failure_atomicity (r : Record) (st : Nat → Nat)
    (h : storedSize st ≠ 4 + r.payload.length ∨
      (storedSize st = 4 + r.payload.length ∧
        recomputedCk st (4 + r.payload.length) ≠ storedSum st)) :
    (begin r st).loaded = false ∧ (begin r st).record = r := by
  rcases h with h | ⟨he, hck⟩
  · simp only [begin]
    rw [if_pos h]
    exact ⟨rfl, rfl⟩
  · simp only [begin]
    rw [if_neg (not_not_intro he), if_pos hck]
    exact ⟨rfl, rfl⟩

theorem claim_c3_witness :
    storedSize (fun _ => 0) ≠ 4 + (construct [0]).payload.length ∧
    (begin (construct [0]) (fun _ => 0)).loaded = false ∧
    (begin (construct [0]) (fun _ => 0)).record = construct [0] :=
  ⟨by decide,
   (claim_c3_load_failure_atomicity (construct [0]) (fun _ => 0) (Or.inl (by decide))).1,
   (claim_c3_load_failure_atomicity (construct [0]) (fun _ => 0) (Or.inl (by decide))).2⟩

/-- C9: begin never writes to storage: the storage after the call is the
storage before it, no write and no commit operation is issued, and the
in-memory record is mutated only on the success path (on failure it is
returned unchanged). -/
theorem claim_c9_load_never_writes (r : Record) (st : Nat → Nat) :
    (begin r st).store = st ∧ (begin r st).writes = 0 ∧ (begin r st).commits = 0 ∧
    ((begin r st).loaded = false → (begin r st).record = r) := by
  simp only [begin]
  split
  · exact ⟨rfl, rfl, rfl, fun _ => rfl⟩
  · split
    · exact ⟨rfl, rfl, rfl, fun _ => rfl⟩
    · exact ⟨rfl, rfl, rfl, fun hc => nomatch hc⟩

theorem claim_c9_witness :
    (begin (construct [0]) (fun _ => 0)).store = (fun _ => 0) ∧
    (begin (construct [0]) (fun _ => 0)).record = construct [0] :=
  ⟨(claim_c9_load_never_writes (construct [0]) (fun _ => 0)).1,
   (claim_c9_load_never_writes (construct [0]) (fun _ => 0)).2.2.2 (by decide)⟩

/-- C8 (amended): update returns no value to the caller (the C++ function
is void); the unchanged/written distinction exists only in its effects:
when the newly computed checksum equals the previously stored one no
storage I/O is performed, otherwise all sizeof(Record) bytes are written
and one commit is issued. -/
theorem claim_c8_update_effects (r : Record) (st : Nat → Nat) :
    (update r st).ret = () ∧
    (fletcher16 (recordBytes { r with m_checksum := 0 }) = r.m_checksum →
      (update r st).wrote = false ∧ (update r st).writes = 0 ∧
      (update r st).commits = 0 ∧ (update r st).store = st) ∧
    (fletcher16 (recordBytes { r with m_checksum := 0 }) ≠ r.m_checksum →
      (update r st).wrote = true ∧ (update r st).writes = 4 + r.payload.length ∧
      (update r st).commits = 1) := by
  refine ⟨update_ret r st, fun h => ?_, fun h => ?_⟩
  · simp only [update]
    rw [if_pos h.symm]
    exact ⟨rfl, rfl, rfl, rfl⟩
  · simp only [update]
    rw [if_neg (fun hc => h hc.symm)]
    exact ⟨rfl, rfl, rfl⟩

theorem claim_c8_witness :
    fletcher16 (recordBytes { construct [0] with m_checksum := 0 }) ≠
      (construct [0]).m_checksum ∧
    (update (construct [0]) (fun _ => 0)).wrote = true ∧
    (update (construct [0]) (fun _ => 0)).writes = 4 + (construct [0]).payload.length ∧
    (update (construct [0]) (fun _ => 0)).commits = 1 :=
  ⟨by decide, (claim_c8_update_effects (construct [0]) (fun _ => 0)).2.2 (by decide)⟩

/-- C8 counterexample: the claim says update returns an unchanged/written
signal to the caller; in the code update returns void, so a call that
writes and a call that detects no change return the very same value --
the caller receives no signal. -/
theorem claim_c8_counterexample :
    (update (construct [0]) (fun _ => 0)).wrote = true ∧
    (update (update (construct [0]) (fun _ => 0)).record
      (update (construct [0]) (fun _ => 0)).store).wrote = false ∧
    (update (construct [0]) (fun _ => 0)).ret =
      (update (update (construct [0]) (fun _ => 0)).record
        (update (construct [0]) (fun _ => 0)).store).ret :=
  ⟨by decide, by decide, rfl⟩

/-- C5 (amended): on a freshly constructed record whose computed checksum
differs from the constructor's 0xAAAA sentinel, the first update call
performs the write (sizeof(Record) byte writes); and after any update
call, an immediately following update with no intervening mutation
performs zero writes and no commit. -/
theorem claim_c5_idempotent_save (p : List Nat) (st : Nat → Nat)
    (h : fletcher16 (recordBytes { construct p with m_checksum := 0 }) ≠ 0xAAAA) :
    (update (construct p) st).wrote = true ∧
    (update (construct p) st).writes = 4 + p.length ∧
    ∀ (r : Record) (st2 : Nat → Nat),
      (update (update r st2).record (update r st2).store).wrote = false ∧
      (update (update r st2).record (update r st2).store).writes = 0 ∧
      (update (update r st2).record (update r st2).store).commits = 0 := by
  have hfirst : (update (construct p) st).wrote = true ∧
      (update (construct p) st).writes = 4 + p.length := by
    simp only [update]
    rw [if_neg (fun hc => h (hc.symm.trans rfl))]
    exact ⟨rfl, rfl⟩
  refine ⟨hfirst.1, hfirst.2, fun r st2 => ?_⟩
  rw [update_record]
  simp only [update]
  split
  · exact ⟨rfl, rfl, rfl⟩
  · rename_i hcond
    exact absurd trivial hcond

theorem claim_c5_witness :
    fletcher16 (recordBytes { construct [0] with m_checksum := 0 }) ≠ 0xAAAA ∧
    (update (construct [0]) (fun _ => 0)).wrote = true ∧
    (update (update (construct [7]) (fun _ => 0)).record
      (update (construct [7]) (fun _ => 0)).store).wrote = false :=
  ⟨by decide,
   (claim_c5_idempotent_save [0] (fun _ => 0) (by decide)).1,
   ((claim_c5_idempotent_save [0] (fun _ => 0) (by decide)).2.2 (construct [7])
     (fun _ => 0)).1⟩

/-- C5 counterexample: the claim says the first update on every freshly
constructed record performs a storage write; for the two-byte payload
225, 194 the computed checksum is exactly the 0xAAAA sentinel the
constructor put into the checksum field, so the first update performs no
write at all. -/
theorem claim_c5_counterexample :
    (update (construct [225, 194]) (fun _ => 0)).wrote = false ∧
    (update (construct [225, 194]) (fun _ => 0)).writes = 0 ∧
    (update (construct [225, 194]) (fun _ => 0)).commits = 0 := by
  refine ⟨by decide, by decide, by decide⟩

theorem fletcher16_set_ne (r : Record) (i v : Nat) (hi : i < r.payload.length)
    (hv : v < 256) (hold : r.payload.get ⟨i, hi⟩ < 256)
    (hne : v % 255 ≠ r.payload.get ⟨i, hi⟩ % 255) :
    fletcher16 (recordBytes { r with m_checksum := 0, payload := r.payload.set i v }) ≠
      fletcher16 (recordBytes { r with m_checksum := 0 }) := by
  intro hc
  have hi2 : i < (r.payload.map (fun b => b % 256)).length := by simpa using hi
  have hget : (r.payload.map (fun b => b % 256)).get ⟨i, hi2⟩ =
      r.payload.get ⟨i, hi⟩ % 256 := by
    simp
  have hset := sum_set_add (r.payload.map (fun b => b % 256)) i (v % 256) hi2
  rw [hget] at hset
  have h1 := fletcher16_mod256
    (recordBytes { r with m_checksum := 0, payload := r.payload.set i v })
  have h2 := fletcher16_mod256 (recordBytes { r with m_checksum := 0 })
  rw [hc, h2] at h1
  simp only [recordBytes, List.sum_cons, List.map_set] at h1
  omega

/-- C2 (amended): if one payload byte is mutated between two update calls
to a byte value that differs from the old byte modulo 255 (any change
except swapping the byte values 0x00 and 0xFF), the second call performs
the write: sizeof(Record) byte writes and a commit. -/
theorem claim_c2_mutation_triggers_write (r : Record) (st : Nat → Nat) (i v : Nat)
    (hi : i < r.payload.length) (hv : v < 256) (hold : r.payload.get ⟨i, hi⟩ < 256)
    (hne : v % 255 ≠ r.payload.get ⟨i, hi⟩ % 255) :
    (update (mutateByte (update r st).record i v) (update r st).store).wrote = true ∧
    (update (mutateByte (update r st).record i v) (update r st).store).writes =
      4 + r.payload.length ∧
    (update (mutateByte (update r st).record i v) (update r st).store).commits = 1 := by
  have hrec : mutateByte (update r st).record i v =
      { r with
        m_checksum := fletcher16 (recordBytes { r with m_checksum := 0 })
        payload := r.payload.set i v } := by
    rw [update_record]
    rfl
  rw [hrec]
  simp only [update]
  split
  · rename_i hcthen
    refine absurd ?_ (fletcher16_set_ne r i v hi hv hold hne)
    exact hcthen.symm
  · refine ⟨rfl, ?_, rfl⟩
    show 4 + (r.payload.set i v).length = 4 + r.payload.length
    rw [List.length_set]

theorem claim_c2_witness :
    0 < (construct [7]).payload.length ∧
    (8 : Nat) % 255 ≠ (construct [7]).payload.get ⟨0, by decide⟩ % 255 ∧
    (update (mutateByte (update (construct [7]) (fun _ => 0)).record 0 8)
      (update (construct [7]) (fun _ => 0)).store).wrote = true :=
  ⟨by decide, by decide,
   (claim_c2_mutation_triggers_write (construct [7]) (fun _ => 0) 0 8 (by decide)
     (by decide) (by decide) (by decide)).1⟩

/-- C2 counterexample: mutating one payload byte from 0x00 to 0xFF leaves
the Fletcher-16 checksum unchanged (0 and 255 coincide mod 255), so the
second update call performs no write at all even though a payload byte
changed to a different value. -/
theorem claim_c2_counterexample :
    (construct [0]).payload.get ⟨0, by decide⟩ ≠ 255 ∧
    (update (mutateByte (update (construct [0]) (fun _ => 0)).record 0 255)
      (update (construct [0]) (fun _ => 0)).store).wrote = false ∧
    (update (mutateByte (update (construct [0]) (fun _ => 0)).record 0 255)
      (update (construct [0]) (fun _ => 0)).store).writes = 0 :=
  ⟨by decide, by decide, by decide⟩

theorem storedSize_writeBytes (st : Nat → Nat) (r : Record) :
    storedSize (writeBytes st (recordBytes r)) = r.m_size % 65536 := by
  have h0 : writeBytes st (recordBytes r) 0 = r.m_size % 256 := by
    rw [writeBytes_lt st _ 0 (by rw [recordBytes_length]; omega)]
    rfl
  have h1 : writeBytes st (recordBytes r) 1 = r.m_size / 256 % 256 := by
    rw [writeBytes_lt st _ 1 (by rw [recordBytes_length]; omega)]
    rfl
  simp only [storedSize, h0, h1]
  omega

theorem storedSum_writeBytes (st : Nat → Nat) (r : Record) :
    storedSum (writeBytes st (recordBytes r)) = r.m_checksum % 65536 := by
  have h2 : writeBytes st (recordBytes r) 2 = r.m_checksum % 256 := by
    rw [writeBytes_lt st _ 2 (by rw [recordBytes_length]; omega)]
    rfl
  have h3 : writeBytes st (recordBytes r) 3 = r.m_checksum / 256 % 256 := by
    rw [writeBytes_lt st _ 3 (by rw [recordBytes_length]; omega)]
    rfl
  simp only [storedSum, h2, h3]
  omega

theorem readBuf_zeroCk_writeBytes (st : Nat → Nat) (r : Record) :
    readBuf (zeroCk (writeBytes st (recordBytes r))) (4 + r.payload.length) =
      recordBytes { r with m_checksum := 0 } := by
  apply List.ext_get
  · rw [readBuf_length, recordBytes_length]
  · intro n h1 h2
    rw [readBuf_get]
    have hn : n < 4 + r.payload.length := by rwa [readBuf_length] at h1
    rcases n with _ | n
    · have hw : writeBytes st (recordBytes r) 0 = r.m_size % 256 := by
        rw [writeBytes_lt st _ 0 (by rw [recordBytes_length]; omega)]
        rfl
      show writeBytes st (recordBytes r) 0 % 256 = r.m_size % 256
      rw [hw]
      omega
    rcases n with _ | n
    · have hw : writeBytes st (recordBytes r) 1 = r.m_size / 256 % 256 := by
        rw [writeBytes_lt st _ 1 (by rw [recordBytes_length]; omega)]
        rfl
      show writeBytes st (recordBytes r) 1 % 256 = r.m_size / 256 % 256
      rw [hw]
      omega
    rcases n with _ | n
    · rfl
    rcases n with _ | m
    · have hr : (recordBytes { r with m_checksum := 0 }).get ⟨0 + 1 + 1 + 1, h2⟩ =
          (0 : Nat) / 256 % 256 := rfl
      rw [hr]
      show (0 : Nat) % 256 = 0 / 256 % 256
      omega
    · have hmlt : m < r.payload.length := by omega
      have hm2 : m < (r.payload.map (fun b => b % 256)).length := by
        rw [List.length_map]
        exact hmlt
      have e1 : zeroCk (writeBytes st (recordBytes r)) (m + 4) =
          writeBytes st (recordBytes r) (m + 4) := by
        simp only [zeroCk]
        rw [if_neg (by omega), if_neg (by omega)]
      have hlt4 : m + 4 < (recordBytes r).length := by
        rw [recordBytes_length]
        omega
      have e2 : writeBytes st (recordBytes r) (m + 4) =
          (recordBytes r).get ⟨m + 4, hlt4⟩ := writeBytes_lt _ _ _ hlt4
      show zeroCk (writeBytes st (recordBytes r)) (m + 4) % 256 =
        (recordBytes { r with m_checksum := 0 }).get ⟨m + 4, h2⟩
      rw [e1, e2]
      show (r.payload.map (fun b => b % 256)).get ⟨m, hm2⟩ % 256 =
        (r.payload.map (fun b => b % 256)).get ⟨m, hm2⟩
      refine Nat.mod_eq_of_lt ?_
      obtain ⟨x, _, hx2⟩ := List.mem_map.mp
        (List.get_mem (r.payload.map (fun b => b % 256)) m hm2)
      rw [← hx2]
      exact Nat.mod_lt _ (by norm_num)

theorem recomputedCk_writeBytes (st : Nat → Nat) (r : Record) :
    recomputedCk (writeBytes st (recordBytes r)) (4 + r.payload.length) =
      fletcher16 (recordBytes { r with m_checksum := 0 }) := by
  unfold recomputedCk
  rw [readBuf_zeroCk_writeBytes]

theorem readBuf_writeBytes_record (st : Nat → Nat) (r : Record) :
    readBuf (writeBytes st (recordBytes r)) (4 + r.payload.length) = recordBytes r := by
  have h := readBuf_writeBytes st (recordBytes r) (recordBytes_lt r)
  rwa [recordBytes_length] at h

theorem begin_after_writeBytes (w : Record) (q : List Nat) (st : Nat → Nat)
    (hsz : w.m_size = 4 + w.payload.length)
    (hlt : 4 + w.payload.length < 65536)
    (hck : w.m_checksum = fletcher16 (recordBytes { w with m_checksum := 0 }))
    (hq : q.length = w.payload.length) :
    (begin (construct q) (writeBytes st (recordBytes w))).loaded = true ∧
    (begin (construct q) (writeBytes st (recordBytes w))).record.payload =
      w.payload.map (fun b => b % 256) := by
  have hckle := fletcher16_le (recordBytes { w with m_checksum := 0 })
  have h1 : storedSize (writeBytes st (recordBytes w)) = 4 + w.payload.length := by
    rw [storedSize_writeBytes, hsz]
    exact Nat.mod_eq_of_lt hlt
  have h2 : storedSum (writeBytes st (recordBytes w)) = w.m_checksum := by
    rw [storedSum_writeBytes, hck]
    exact Nat.mod_eq_of_lt (by omega)
  have h3 : recomputedCk (writeBytes st (recordBytes w)) (4 + w.payload.length) =
      w.m_checksum := by
    rw [recomputedCk_writeBytes, ← hck]
  have hql : 4 + (construct q).payload.length = 4 + w.payload.length := by
    show 4 + q.length = _
    rw [hq]
  simp only [begin]
  rw [hql, if_neg (not_not_intro h1), if_neg (by rw [h3, h2]; exact not_not_intro rfl)]
  refine ⟨rfl, ?_⟩
  show (readBuf (writeBytes st (recordBytes w)) (4 + w.payload.length)).drop 4 = _
  rw [readBuf_writeBytes_record]
  rfl

/-- C1 (amended): save-then-load round-trip.  For a record whose size
field equals sizeof(Record) (as the constructor guarantees, for
sizeof(Record) below 2^16) and whose checksum field differs from the
recomputed checksum -- so that update actually performs the write -- the
subsequent load into a freshly constructed record of the same type
returns true and reproduces the saved payload, whatever storage held
before. -/
theorem claim_c1_roundtrip (r : Record) (q : List Nat) (st : Nat → Nat)
    (hsz : r.m_size = 4 + r.payload.length)
    (hlt : 4 + r.payload.length < 65536)
    (hb : ∀ b ∈ r.payload, b < 256)
    (hq : q.length = r.payload.length)
    (hw : fletcher16 (recordBytes { r with m_checksum := 0 }) ≠ r.m_checksum) :
    (begin (construct q) (update r st).store).loaded = true ∧
    (begin (construct q) (update r st).store).record.payload = r.payload := by
  have hstore : (update r st).store =
      writeBytes st (recordBytes
        { r with m_checksum := fletcher16 (recordBytes { r with m_checksum := 0 }) }) := by
    simp only [update]
    rw [if_neg (fun hc => hw hc.symm)]
  rw [hstore]
  have h := begin_after_writeBytes
    { r with m_checksum := fletcher16 (recordBytes { r with m_checksum := 0 }) } q st
    hsz hlt rfl hq
  exact ⟨h.1, h.2.trans (map_mod_id r.payload hb)⟩

theorem claim_c1_witness :
    fletcher16 (recordBytes { construct [7] with m_checksum := 0 }) ≠
      (construct [7]).m_checksum ∧
    (begin (construct [9]) (update (construct [7]) (fun _ => 0)).store).loaded = true ∧
    (begin (construct [9]) (update (construct [7]) (fun _ => 0)).store).record.payload =
      (construct [7]).payload :=
  ⟨by decide,
   (claim_c1_roundtrip (construct [7]) [9] (fun _ => 0) (by decide) (by decide)
     (by decide) (by decide) (by decide)).1,
   (claim_c1_roundtrip (construct [7]) [9] (fun _ => 0) (by decide) (by decide)
     (by decide) (by decide) (by decide)).2⟩

/-- C1 counterexample: the claim quantifies over every record and every
starting storage.  For the record with payload 7 whose checksum field
already equals the recomputed checksum (exactly the in-memory state left
behind by any previous update call), update performs no write, so against
all-zero storage the subsequent load of a fresh record fails instead of
returning the payload. -/
theorem claim_c1_counterexample :
    ¬ ((begin (construct [0])
          (update (⟨5, 8204, [7]⟩ : Record) (fun _ => 0)).store).loaded = true ∧
       (begin (construct [0])
          (update (⟨5, 8204, [7]⟩ : Record) (fun _ => 0)).store).record.payload = [7]) := by
  decide

theorem runOps_nil (s : Sys) : runOps s [] = s := rfl

theorem construct_m_size (p : List Nat) : (construct p).m_size = (4 + p.length) % 65536 := rfl

theorem runOp_size (s : Sys) (op : Op) (n : Nat)
    (h1 : s.record.m_size = 4 + n) (h2 : s.record.payload.length = n) :
    (runOp s op).record.m_size = 4 + n ∧ (runOp s op).record.payload.length = n := by
  cases op with
  | load =>
    simp only [runOp, begin]
    split
    · exact ⟨h1, h2⟩
    · split
      · exact ⟨h1, h2⟩
      · rename_i hsz hck
        have hsz2 : storedSize s.store = 4 + n := by
          have h := not_ne_iff.mp hsz
          rw [h2] at h
          exact h
        refine ⟨hsz2, ?_⟩
        show ((readBuf s.store (4 + s.record.payload.length)).drop 4).length = n
        rw [List.length_drop, readBuf_length, h2]
        omega
  | save =>
    simp only [runOp, update]
    split
    · exact ⟨h1, h2⟩
    · exact ⟨h1, h2⟩
  | mutate i v =>
    refine ⟨h1, ?_⟩
    show (s.record.payload.set i (v % 256)).length = n
    rw [List.length_set]
    exact h2
  | corrupt f =>
    exact ⟨h1, h2⟩

theorem runOps_size (ops : List Op) : ∀ (s : Sys) (n : Nat),
    s.record.m_size = 4 + n → s.record.payload.length = n →
    (runOps s ops).record.m_size = 4 + n ∧ (runOps s ops).record.payload.length = n := by
  induction ops with
  | nil => intro s n h1 h2; exact ⟨h1, h2⟩
  | cons op rest ih =>
    intro s n h1 h2
    have h := runOp_size s op n h1 h2
    exact ih (runOp s op) n h.1 h.2

/-- C7 (amended): for every record type with sizeof(Record) below 2^16
(m_size is a 16-bit field), in every state reachable by constructing the
store and then performing any sequence of load calls, save calls,
caller-side payload-byte mutations and external storage changes, the
in-memory record's m_size field equals sizeof(Record). -/
theorem claim_c7_size_invariant (p : List Nat) (st : Nat → Nat) (ops : List Op)
    (h : 4 + p.length < 65536) :
    (runOps { record := construct p, store := st } ops).record.m_size = 4 + p.length := by
  have h1 : (construct p).m_size = 4 + p.length := by
    show (4 + p.length) % 65536 = 4 + p.length
    exact Nat.mod_eq_of_lt h
  exact (runOps_size ops { record := construct p, store := st } p.length h1 rfl).1

theorem claim_c7_witness :
    4 + [1].length < 65536 ∧
    (runOps { record := construct [1], store := fun _ => 0 }
      [Op.save, Op.mutate 0 3, Op.load, Op.corrupt (fun _ => 255),
        Op.load, Op.save]).record.m_size = 4 + [1].length :=
  ⟨by decide,
   claim_c7_size_invariant [1] (fun _ => 0)
     [Op.save, Op.mutate 0 3, Op.load, Op.corrupt (fun _ => 255), Op.load, Op.save]
     (by decide)⟩

/-- C7 counterexample: the claim as stated has no size bound, but m_size
is a uint16_t; for a payload of 65532 bytes (sizeof(Record) = 65536,
admissible with a large enough partition) the constructor stores
65536 mod 2^16 = 0 into m_size, which differs from sizeof(Record) already
in the initial state, after the empty sequence of calls. -/
theorem claim_c7_counterexample :
    (runOps { record := construct (List.replicate 65532 0), store := fun _ => 0 }
      []).record.m_size ≠ 4 + (List.replicate 65532 0).length := by
  rw [runOps_nil]
  show (construct (List.replicate 65532 0)).m_size ≠ 4 + (List.replicate 65532 0).length
  rw [construct_m_size, List.length_replicate]
  norm_num

end FlashSettings
